import Mathlib

set_option maxRecDepth 8000

/-!
Shallow embedding of `src/app.py` (google_meet_calendar): a Google-Calendar
scheduling assistant.  The file models, close to the Python source,

* the JSON argument payloads handled by `json.loads` (subset: no escape
  sequences in strings, integer numbers),
* Python dictionary / truthiness / iteration semantics used by the code,
* `datetime` values together with `datetime.isoformat` and the ISO-8601
  fragment of the permissive `dateutil` parser,
* `GoogleCalendarClient.create_event` (the insert request it builds),
* `OpenAIAssistant.process_function_call`, and
* the polling loop of `OpenAIAssistant.run_assistant`, driven by the trace of
  poll responses delivered by the provider.

External collaborators (the dateutil parser on arbitrary strings and the
calendar provider) are oracles passed in as function arguments; a Python
exception is modelled as `Except.error` carrying the exception text.
-/

/-- Python value produced by `json.loads` (the JSON subset used by the tool
payloads: object, array, string without escape sequences, integer, boolean,
null).  JSON `null` and the Python constant `None` coincide in this model. -/
inductive JVal where
  | null
  | bool (b : Bool)
  | num (n : Int)
  | str (s : String)
  | arr (elems : List JVal)
  | dict (fields : List (String × JVal))
deriving Repr

/-- Skip JSON whitespace. -/
def skipWs : List Char → List Char
  | c :: l => if c = ' ' ∨ c = '\n' ∨ c = '\t' ∨ c = '\r' then skipWs l else c :: l
  | [] => []

/-- Parse the body of a JSON string after the opening quote.  Escape sequences
are outside the modelled subset and make the parse fail. -/
def parseStrAux (acc : List Char) : List Char → Option (String × List Char)
  | '"' :: l => some (String.mk acc.reverse, l)
  | '\\' :: _ => none
  | c :: l => parseStrAux (c :: acc) l
  | [] => none

/-- Consume a maximal run of decimal digits, accumulating their value. -/
def parseNatAux (acc : Nat) : List Char → Nat × List Char
  | c :: l => if c.isDigit then parseNatAux (acc * 10 + (c.toNat - 48)) l else (acc, c :: l)
  | [] => (acc, [])

/-- Parse at least one decimal digit. -/
def parseNat1 : List Char → Option (Nat × List Char)
  | c :: l => if c.isDigit then some (parseNatAux (c.toNat - 48) l) else none
  | [] => none

mutual

/-- Fuelled parser for one JSON value (subset, see `JVal`). -/
def parseJVal : Nat → List Char → Option (JVal × List Char)
  | 0, _ => none
  | fuel + 1, l =>
    match skipWs l with
    | '\x7b' :: r =>
      (match skipWs r with
       | '\x7d' :: r2 => some (.dict [], r2)
       | r2 => (parseJFields fuel r2).map (fun p => (.dict p.1, p.2)))
    | '[' :: r =>
      (match skipWs r with
       | ']' :: r2 => some (.arr [], r2)
       | r2 => (parseJElems fuel r2).map (fun p => (.arr p.1, p.2)))
    | '"' :: r => (parseStrAux [] r).map (fun p => (.str p.1, p.2))
    | '-' :: r => (parseNat1 r).map (fun p => (.num (-(p.1 : Int)), p.2))
    | 't' :: 'r' :: 'u' :: 'e' :: r => some (.bool true, r)
    | 'f' :: 'a' :: 'l' :: 's' :: 'e' :: r => some (.bool false, r)
    | 'n' :: 'u' :: 'l' :: 'l' :: r => some (.null, r)
    | c :: r => if c.isDigit then (parseNat1 (c :: r)).map (fun p => (.num (p.1 : Int), p.2)) else none
    | [] => none

/-- Fuelled parser for the comma-separated elements of a JSON array
(positioned after the opening bracket, at the first element). -/
def parseJElems : Nat → List Char → Option (List JVal × List Char)
  | 0, _ => none
  | fuel + 1, l =>
    match parseJVal fuel l with
    | none => none
    | some (v, r) =>
      match skipWs r with
      | ',' :: r2 => (parseJElems fuel r2).map (fun p => (v :: p.1, p.2))
      | ']' :: r2 => some ([v], r2)
      | _ => none

/-- Fuelled parser for the comma-separated members of a JSON object
(positioned after the opening brace, at the first key). -/
def parseJFields : Nat → List Char → Option (List (String × JVal) × List Char)
  | 0, _ => none
  | fuel + 1, l =>
    match skipWs l with
    | '"' :: r =>
      (match parseStrAux [] r with
       | none => none
       | some (k, r2) =>
         match skipWs r2 with
         | ':' :: r3 =>
           (match parseJVal fuel r3 with
            | none => none
            | some (v, r4) =>
              match skipWs r4 with
              | ',' :: r5 => (parseJFields fuel r5).map (fun p => ((k, v) :: p.1, p.2))
              | '\x7d' :: r5 => some ([(k, v)], r5)
              | _ => none)
         | _ => none)
    | _ => none

end

/-- Model of Python `json.loads`: parse one JSON document and require that only
whitespace follows; a failure is the raised `json.JSONDecodeError`. -/
def json_loads (s : String) : Except String JVal :=
  match parseJVal (2 * s.length + 8) s.data with
  | none => .error "Expecting value"
  | some (v, rest) => if skipWs rest = [] then .ok v else .error "Extra data"

/-- Lookup in a Python dict built from JSON object members: a repeated key is
overwritten by its later occurrence. -/
def pyLookup (fields : List (String × JVal)) (k : String) : Option JVal :=
  match fields with
  | [] => none
  | (k', v) :: rest =>
    match pyLookup rest k with
    | some r => some r
    | none => if k' = k then some v else none

/-- Python subscript `v[k]` with a string key: `KeyError` when the key is
absent (its text is the repr of the key), `TypeError` on a non-dict. -/
def pySubscript (v : JVal) (k : String) : Except String JVal :=
  match v with
  | .dict fields =>
    match pyLookup fields k with
    | some r => .ok r
    | none => .error ("\x27" ++ k ++ "\x27")
  | _ => .error ("TypeError: indices must be integers, not \x27str\x27")

/-- Python `v.get(k)` for a dict: the value, or `None` when absent;
`AttributeError` when `v` is not a dict. -/
def pyDictGet (v : JVal) (k : String) : Except String JVal :=
  match v with
  | .dict fields => .ok ((pyLookup fields k).getD .null)
  | _ => .error ("AttributeError: object has no attribute \x27get\x27")

/-- Python truthiness of a JSON value. -/
def jTruthy : JVal → Bool
  | .null => false
  | .bool b => b
  | .num n => n ≠ 0
  | .str s => s ≠ ""
  | .arr l => !l.isEmpty
  | .dict f => !f.isEmpty

/-- Python iteration over a JSON value: a list yields its elements, a string
its characters, a dict its keys; anything else raises `TypeError`. -/
def jIterate : JVal → Except String (List JVal)
  | .arr l => .ok l
  | .str s => .ok (s.data.map (fun c => .str (String.mk [c])))
  | .dict f => .ok (f.map (fun p => .str p.1))
  | _ => .error "TypeError: object is not iterable"

mutual

/-- Python `repr` of a JSON value (used by `str` on containers). -/
def pyRepr : JVal → String
  | .null => "None"
  | .bool true => "True"
  | .bool false => "False"
  | .num n => toString n
  | .str s => "\x27" ++ s ++ "\x27"
  | .arr l => "[" ++ pyReprElems l ++ "]"
  | .dict f => "\x7b" ++ pyReprFields f ++ "\x7d"

/-- Comma-separated reprs of list elements. -/
def pyReprElems : List JVal → String
  | [] => ""
  | [v] => pyRepr v
  | v :: rest => pyRepr v ++ ", " ++ pyReprElems rest

/-- Comma-separated reprs of dict members. -/
def pyReprFields : List (String × JVal) → String
  | [] => ""
  | [(k, v)] => "\x27" ++ k ++ "\x27: " ++ pyRepr v
  | (k, v) :: rest => "\x27" ++ k ++ "\x27: " ++ pyRepr v ++ ", " ++ pyReprFields rest

end

/-- Python `str` of a JSON value, as interpolated by an f-string. -/
def pyStr : JVal → String
  | .str s => s
  | v => pyRepr v

/-- A Python `datetime` value as produced by the dateutil parser: calendar
fields plus an optional fixed UTC offset in whole minutes (`tzoffset`).  An
aware datetime with an offset that is not a whole number of minutes is outside
the modelled subset. -/
structure Datetime where
  year : Nat
  month : Nat
  day : Nat
  hour : Nat
  minute : Nat
  second : Nat
  microsecond : Nat
  tzmin : Option Int
deriving DecidableEq, Repr

/-- Gregorian leap-year rule, as in Python's `calendar.isleap`. -/
def isLeap (y : Nat) : Bool :=
  (y % 4 = 0 && y % 100 ≠ 0) || y % 400 = 0

/-- Number of days in a month (`0` for an invalid month number). -/
def daysInMonth (y m : Nat) : Nat :=
  match m with
  | 1 => 31
  | 2 => if isLeap y then 29 else 28
  | 3 => 31
  | 4 => 30
  | 5 => 31
  | 6 => 30
  | 7 => 31
  | 8 => 31
  | 9 => 30
  | 10 => 31
  | 11 => 30
  | 12 => 31
  | _ => 0

/-- Range constraints `datetime.datetime` enforces on its fields, with the
offset bound of `timezone` (strictly less than 24 hours in magnitude). -/
def Datetime.valid (d : Datetime) : Bool :=
  1 ≤ d.year && d.year ≤ 9999 &&
  1 ≤ d.month && d.month ≤ 12 &&
  1 ≤ d.day && d.day ≤ daysInMonth d.year d.month &&
  d.hour < 24 && d.minute < 60 && d.second < 60 && d.microsecond < 1000000 &&
  (match d.tzmin with
   | none => true
   | some o => -1440 < o && o < 1440)

/-- Zero-padded fixed-width decimal rendering, most significant digit first. -/
def toPadList : Nat → Nat → List Char
  | 0, _ => []
  | k + 1, n => Nat.digitChar (n / 10 ^ k % 10) :: toPadList k (n % 10 ^ k)

/-- `datetime.isoformat` as a character list:
`YYYY-MM-DDTHH:MM:SS[.ffffff][+HH:MM]`, the fraction printed exactly when the
microsecond field is nonzero, the offset exactly for an aware datetime. -/
def isoformatList (d : Datetime) : List Char :=
  toPadList 4 d.year ++ '-' :: toPadList 2 d.month ++ '-' :: toPadList 2 d.day ++
  'T' :: toPadList 2 d.hour ++ ':' :: toPadList 2 d.minute ++ ':' :: toPadList 2 d.second ++
  (if d.microsecond = 0 then [] else '.' :: toPadList 6 d.microsecond) ++
  (match d.tzmin with
   | none => []
   | some o =>
     (if o < 0 then '-' else '+') ::
       (toPadList 2 (o.natAbs / 60) ++ ':' :: toPadList 2 (o.natAbs % 60)))

/-- `datetime.isoformat` as a string. -/
def Datetime.isoformat (d : Datetime) : String :=
  String.mk (isoformatList d)

/-- Consume exactly `k` decimal digits, extending the accumulator. -/
def parseDigitsAux : Nat → Nat → List Char → Option (Nat × List Char)
  | 0, acc, l => some (acc, l)
  | k + 1, acc, c :: l =>
    if c.isDigit then parseDigitsAux k (acc * 10 + (c.toNat - 48)) l else none
  | _ + 1, _, [] => none

/-- Consume exactly `k` decimal digits and return their value. -/
def parseDigits (k : Nat) (l : List Char) : Option (Nat × List Char) :=
  parseDigitsAux k 0 l

/-- Consume one expected character. -/
def expectChar (c : Char) : List Char → Option (List Char)
  | c' :: l => if c' = c then some l else none
  | [] => none

/-- Parse an optional `.ffffff` fractional-second group. -/
def parseFrac : List Char → Option (Nat × List Char)
  | '.' :: rest => parseDigits 6 rest
  | l => some (0, l)

/-- Parse an optional `±HH:MM` UTC-offset suffix at end of input. -/
def parseOffs : List Char → Option (Option Int × List Char)
  | [] => some (none, [])
  | '+' :: rest =>
    (do
      let (hh, l1) ← parseDigits 2 rest
      let l2 ← expectChar ':' l1
      let (mm, l3) ← parseDigits 2 l2
      some (some ((hh * 60 + mm : Nat) : Int), l3))
  | '-' :: rest =>
    (do
      let (hh, l1) ← parseDigits 2 rest
      let l2 ← expectChar ':' l1
      let (mm, l3) ← parseDigits 2 l2
      some (some (-((hh * 60 + mm : Nat) : Int)), l3))
  | _ => none

/-- The ISO-8601 fragment of the permissive dateutil parser, on the shapes
`datetime.isoformat` emits: this parses the mandatory
`YYYY-MM-DDTHH:MM:SS` core. -/
def parseCore (l : List Char) : Option ((Nat × Nat × Nat × Nat × Nat × Nat) × List Char) :=
  do
    let (y, l1) ← parseDigits 4 l
    let l2 ← expectChar '-' l1
    let (mo, l3) ← parseDigits 2 l2
    let l4 ← expectChar '-' l3
    let (dy, l5) ← parseDigits 2 l4
    let l6 ← expectChar 'T' l5
    let (h, l7) ← parseDigits 2 l6
    let l8 ← expectChar ':' l7
    let (mi, l9) ← parseDigits 2 l8
    let l10 ← expectChar ':' l9
    let (s, l11) ← parseDigits 2 l10
    some ((y, mo, dy, h, mi, s), l11)

/-- Assemble the parsed components, rejecting trailing input and
out-of-range fields (the way the `datetime` constructor would). -/
def parseIsoList (l : List Char) : Option Datetime :=
  do
    let ((y, mo, dy, h, mi, s), l11) ← parseCore l
    let (us, l12) ← parseFrac l11
    let (off, l13) ← parseOffs l12
    let d : Datetime := ⟨y, mo, dy, h, mi, s, us, off⟩
    if l13 = [] ∧ d.valid then some d else none

/-- String-level entry point of the modelled ISO-8601 parser. -/
def parseIso (s : String) : Option Datetime :=
  parseIsoList s.data

/-- The configured timezone constant of the script. -/
def TIMEZONE : String := "UTC"

/-- The `start`/`end` sub-records of the provider event body. -/
structure EventTime where
  dateTime : String
  timeZone : String
deriving DecidableEq, Repr

/-- The provider event body built by `create_event`: attendee entries and the
dynamic `summary`/`description` values stay JSON values, as in Python. -/
structure EventBody where
  summary : JVal
  description : JVal
  start : EventTime
  end_ : EventTime
  attendees : List JVal
deriving Repr

/-- The event-insert request issued by `create_event`: target calendar, event
body, and the `sendUpdates` query parameter. -/
structure InsertRequest where
  calendarId : String
  body : EventBody
  sendUpdates : String
deriving Repr

/-- `GoogleCalendarClient.create_event` up to the point of issuing the insert
call: builds the event record (fixed timezone, attendee emails wrapped into
`email` objects when `attendees` is truthy) and selects `sendUpdates`.
Iterating a truthy non-iterable `attendees` raises, hence `Except`. -/
def create_event (summary : JVal) (start_time end_time : String)
    (attendees : JVal) (description : JVal) : Except String InsertRequest :=
  match (if jTruthy attendees then jIterate attendees else .ok []) with
  | .error e => .error e
  | .ok atts =>
    .ok
      { calendarId := "primary"
        body :=
          { summary := summary
            description := description
            start := { dateTime := start_time, timeZone := TIMEZONE }
            end_ := { dateTime := end_time, timeZone := TIMEZONE }
            attendees := atts.map (fun email => .dict [("email", email)]) }
        sendUpdates := if jTruthy attendees then "all" else "none" }

/-- The `function` field of a tool call: name and raw JSON argument text. -/
structure ToolFunction where
  name : String
  arguments : String
deriving DecidableEq, Repr

/-- A pending tool call of a `requires_action` run. -/
structure ToolCall where
  id : String
  function : ToolFunction
deriving DecidableEq, Repr

/-- `dateutil.parser.parse` applied to a Python value: only strings are
parseable input in this model, anything else raises `TypeError`.  The
behaviour on strings is the oracle `du`. -/
def pyParse (du : String → Except String Datetime) (v : JVal) : Except String Datetime :=
  match v with
  | .str s => du s
  | _ => .error "TypeError: Parser must be a str or character stream"

/-- Body of the `try` block of `process_function_call`, in source evaluation
order: normalize `start_time` and `end_time` via the permissive parser and
`isoformat`, look up `summary`, fetch optional `attendees`/`description`,
build the insert request, execute it against the provider oracle `pr`, and
format the success string from the returned event's `htmlLink`.  The second
component records the insert requests actually issued. -/
def tryCreate (du : String → Except String Datetime)
    (pr : InsertRequest → Except String JVal) (arguments : JVal) :
    Except String String × List InsertRequest :=
  match pySubscript arguments "start_time" with
  | .error e => (.error e, [])
  | .ok stV =>
    match pyParse du stV with
    | .error e => (.error e, [])
    | .ok d1 =>
      match pySubscript arguments "end_time" with
      | .error e => (.error e, [])
      | .ok etV =>
        match pyParse du etV with
        | .error e => (.error e, [])
        | .ok d2 =>
          match pySubscript arguments "summary" with
          | .error e => (.error e, [])
          | .ok summary =>
            match pyDictGet arguments "attendees" with
            | .error e => (.error e, [])
            | .ok atts =>
              match pyDictGet arguments "description" with
              | .error e => (.error e, [])
              | .ok desc =>
                match create_event summary d1.isoformat d2.isoformat atts desc with
                | .error e => (.error e, [])
                | .ok req =>
                  match pr req with
                  | .error e => (.error e, [req])
                  | .ok event =>
                    match pyDictGet event "htmlLink" with
                    | .error e => (.error e, [req])
                    | .ok link => (.ok ("Event created: " ++ pyStr link), [req])

/-- `OpenAIAssistant.process_function_call`: `json.loads` the argument text
(outside any handler, so its failure propagates as `Except.error`), then
dispatch on the function name; for the known name the `try` block's failure is
converted into the `Error creating event:` string.  The second component
records the insert requests issued to the calendar. -/
def process_function_call (du : String → Except String Datetime)
    (pr : InsertRequest → Except String JVal) (tool_call : ToolCall) :
    Except String String × List InsertRequest :=
  match json_loads tool_call.function.arguments with
  | .error e => (.error e, [])
  | .ok arguments =>
    if tool_call.function.name = "create_google_calendar_event" then
      match tryCreate du pr arguments with
      | (.ok s, ins) => (.ok s, ins)
      | (.error e, ins) => (.ok ("Error creating event: " ++ e), ins)
    else
      (.ok "Unknown function called", [])

/-- One tool-output entry submitted back to the run. -/
structure ToolOutput where
  tool_call_id : String
  output : String
deriving DecidableEq, Repr

/-- One poll response of the run-status retrieval: the `status` string and
the pending tool calls of `required_action.submit_tool_outputs` (consulted
only when the status is `requires_action`). -/
structure Poll where
  status : String
  tool_calls : List ToolCall
deriving DecidableEq, Repr

/-- One message of the thread's message list; `content` holds the text values
of its content blocks. -/
structure Message where
  content : List String
deriving DecidableEq, Repr

/-- `messages.data[0].content[0].text.value` on the message list returned by
the provider (newest message first); an empty list or an empty content array
raises `IndexError`. -/
def readLatest (msgs : List Message) : Except String String :=
  match msgs with
  | [] => .error "IndexError: list index out of range"
  | m :: _ =>
    match m.content with
    | [] => .error "IndexError: list index out of range"
    | c :: _ => .ok c

/-- The `for tool_call in ...tool_calls` loop of `run_assistant`: one output
entry per tool call, in order; a propagated exception aborts the loop.  The
second component records the insert requests issued so far. -/
def processBatch (du : String → Except String Datetime)
    (pr : InsertRequest → Except String JVal) :
    List ToolCall → Except String (List ToolOutput) × List InsertRequest
  | [] => (.ok [], [])
  | tc :: rest =>
    match process_function_call du pr tc with
    | (.error e, ins) => (.error e, ins)
    | (.ok out, ins) =>
      match processBatch du pr rest with
      | (.error e, ins') => (.error e, ins ++ ins')
      | (.ok outs, ins') => (.ok ({ tool_call_id := tc.id, output := out } :: outs), ins ++ ins')

/-- How the polling loop ends: the function's return value, a propagated
Python exception, or still polling when the modelled trace is exhausted. -/
inductive RunOutcome where
  | returned (s : String)
  | raised (e : String)
  | pending
deriving DecidableEq, Repr

/-- Observable behaviour of one `run_assistant` invocation: the tool-output
batches submitted (in order), the calendar insert requests issued, whether the
thread's message list was read, and how the call ended. -/
structure RunState where
  submissions : List (List ToolOutput)
  inserts : List InsertRequest
  readMsgs : Bool
  outcome : RunOutcome
deriving Repr

/-- The polling loop of `OpenAIAssistant.run_assistant`, driven by the finite
trace `polls` of successive run-status retrievals and by the thread's message
list `msgs` as it stands when the loop exits:
`completed` breaks out and reads the latest message; `requires_action`
processes every pending tool call, submits the batch and keeps polling;
`failed`/`cancelled`/`expired` return the fixed failure string; every other
status polls again. -/
def run_assistant (du : String → Except String Datetime)
    (pr : InsertRequest → Except String JVal) (msgs : List Message) :
    List Poll → RunState
  | [] => { submissions := [], inserts := [], readMsgs := false, outcome := .pending }
  | p :: rest =>
    if p.status = "completed" then
      { submissions := [], inserts := [], readMsgs := true
        outcome :=
          match readLatest msgs with
          | .ok s => .returned s
          | .error e => .raised e }
    else if p.status = "requires_action" then
      match processBatch du pr p.tool_calls with
      | (.error e, ins) =>
        { submissions := [], inserts := ins, readMsgs := false, outcome := .raised e }
      | (.ok outs, ins) =>
        let st := run_assistant du pr msgs rest
        { submissions := outs :: st.submissions, inserts := ins ++ st.inserts
          readMsgs := st.readMsgs, outcome := st.outcome }
    else if p.status = "failed" ∨ p.status = "cancelled" ∨ p.status = "expired" then
      { submissions := [], inserts := [], readMsgs := false, outcome := .returned "Run failed" }
    else
      run_assistant du pr msgs rest

/-- The output string carried for a tool call by the batch entry, when
`process_function_call` did not raise. -/
def pfcOutput (du : String → Except String Datetime)
    (pr : InsertRequest → Except String JVal) (tc : ToolCall) : String :=
  match (process_function_call du pr tc).1 with
  | .ok s => s
  | .error e => e

/-- Concrete dateutil oracle accepting exactly the modelled ISO-8601
fragment. -/
def duIso (s : String) : Except String Datetime :=
  match parseIso s with
  | some d => .ok d
  | none => .error ("Unknown string format: " ++ s)

/-- Concrete provider oracle: every insert succeeds with a fixed link. -/
def prOk : InsertRequest → Except String JVal :=
  fun _ => .ok (.dict [("htmlLink", .str "https://calendar.google.com/event?eid=abc123")])

/-- Argument text of a well-formed event-creation tool call. -/
def argsGoodText : String :=
  "\x7b\"summary\": \"Team meeting\", \"start_time\": \"2024-06-03T14:00:00\", \"end_time\": \"2024-06-03T15:00:00\", \"attendees\": [\"alice@example.com\", \"bob@example.com\"]\x7d"

/-- The parsed form of `argsGoodText`. -/
def argsGood : JVal :=
  .dict [("summary", .str "Team meeting"), ("start_time", .str "2024-06-03T14:00:00"),
         ("end_time", .str "2024-06-03T15:00:00"),
         ("attendees", .arr [.str "alice@example.com", .str "bob@example.com"])]

/-- A well-formed event-creation tool call. -/
def tcGood : ToolCall :=
  { id := "call_1", function := { name := "create_google_calendar_event", arguments := argsGoodText } }

/-- A tool call naming the known function with malformed JSON arguments. -/
def tcMalformed : ToolCall :=
  { id := "call_bad", function := { name := "create_google_calendar_event", arguments := "\x7b" } }

/-- A tool call with an unknown function name and malformed JSON arguments. -/
def tcuBad : ToolCall :=
  { id := "call_u", function := { name := "delete_event", arguments := "\x7b" } }

/-- A tool call with an unknown function name and well-formed arguments. -/
def tcUnknown : ToolCall :=
  { id := "call_u2", function := { name := "delete_event", arguments := "\x7b\x7d" } }

/-- The insert request `create_event` builds for `argsGood` after
normalization. -/
def reqGood : InsertRequest :=
  { calendarId := "primary"
    body :=
      { summary := .str "Team meeting"
        description := .null
        start := { dateTime := "2024-06-03T14:00:00", timeZone := "UTC" }
        end_ := { dateTime := "2024-06-03T15:00:00", timeZone := "UTC" }
        attendees := [.dict [("email", .str "alice@example.com")],
                      .dict [("email", .str "bob@example.com")]] }
    sendUpdates := "all" }

/-- The event object `prOk` returns. -/
def evGood : JVal :=
  .dict [("htmlLink", .str "https://calendar.google.com/event?eid=abc123")]

/-- A thread message list (newest first) as read after completion. -/
def msgsEx : List Message :=
  [{ content := ["Your meeting is booked: https://calendar.google.com/event?eid=abc123"] },
   { content := ["Schedule a team meeting"] }]

theorem daysInMonth_le (y m : Nat) : daysInMonth y m ≤ 31 := by
  unfold daysInMonth
  split <;> (try split) <;> omega

theorem digitChar_isDigit (d : Nat) (h : d < 10) : (Nat.digitChar d).isDigit = true := by
  interval_cases d <;> decide

theorem digitChar_toNat (d : Nat) (h : d < 10) : (Nat.digitChar d).toNat = 48 + d := by
  interval_cases d <;> decide

theorem parseDigitsAux_pad (k : Nat) : ∀ (acc n : Nat) (rest : List Char), n < 10 ^ k →
    parseDigitsAux k acc (toPadList k n ++ rest) = some (acc * 10 ^ k + n, rest) := by
  induction k with
  | zero =>
    intro acc n rest h
    have hn : n = 0 := by omega
    subst hn
    simp [toPadList, parseDigitsAux]
  | succ k ih =>
    intro acc n rest h
    have hd : n / 10 ^ k % 10 < 10 := Nat.mod_lt _ (by norm_num)
    have hq : n / 10 ^ k < 10 := by
      apply Nat.div_lt_of_lt_mul
      calc n < 10 ^ (k + 1) := h
        _ = 10 ^ k * 10 := pow_succ 10 k
    have hqq : n / 10 ^ k % 10 = n / 10 ^ k := Nat.mod_eq_of_lt hq
    have hmod : n % 10 ^ k < 10 ^ k := Nat.mod_lt _ (Nat.pos_pow_of_pos k (by norm_num))
    simp only [toPadList, List.cons_append, List.append_eq, parseDigitsAux,
      digitChar_isDigit _ hd, if_true, digitChar_toNat _ hd, Nat.add_sub_cancel_left]
    rw [ih _ _ rest hmod]
    have harith : (acc * 10 + n / 10 ^ k % 10) * 10 ^ k + n % 10 ^ k = acc * 10 ^ (k + 1) + n := by
      rw [hqq]
      calc (acc * 10 + n / 10 ^ k) * 10 ^ k + n % 10 ^ k
          = acc * (10 ^ k * 10) + (10 ^ k * (n / 10 ^ k) + n % 10 ^ k) := by ring
        _ = acc * 10 ^ (k + 1) + n := by rw [Nat.div_add_mod, ← pow_succ]
    rw [harith]

theorem parseDigits_pad (k n : Nat) (rest : List Char) (h : n < 10 ^ k) :
    parseDigits k (toPadList k n ++ rest) = some (n, rest) := by
  simpa [parseDigits] using parseDigitsAux_pad k 0 n rest h

theorem parseDigits_pad_nil (k n : Nat) (h : n < 10 ^ k) :
    parseDigits k (toPadList k n) = some (n, []) := by
  simpa using parseDigits_pad k n [] h

theorem expectChar_cons (c : Char) (l : List Char) : expectChar c (c :: l) = some l := by
  simp [expectChar]

theorem parseCore_pad (y mo dy h mi s : Nat) (tail : List Char)
    (hy : y < 10000) (hmo : mo < 100) (hdy : dy < 100) (hh : h < 100)
    (hmi : mi < 100) (hs : s < 100) :
    parseCore (toPadList 4 y ++ '-' :: (toPadList 2 mo ++ '-' :: (toPadList 2 dy ++
      'T' :: (toPadList 2 h ++ ':' :: (toPadList 2 mi ++ ':' :: (toPadList 2 s ++ tail)))))) =
    some ((y, mo, dy, h, mi, s), tail) := by
  have e4 : (10 : Nat) ^ 4 = 10000 := by norm_num
  have e2 : (10 : Nat) ^ 2 = 100 := by norm_num
  simp only [parseCore, List.cons_append, List.append_assoc]
  rw [parseDigits_pad 4 y _ (by omega)]
  simp only [Option.bind_eq_bind, Option.some_bind, expectChar_cons]
  rw [parseDigits_pad 2 mo _ (by omega)]
  simp only [Option.some_bind, expectChar_cons]
  rw [parseDigits_pad 2 dy _ (by omega)]
  simp only [Option.some_bind, expectChar_cons]
  rw [parseDigits_pad 2 h _ (by omega)]
  simp only [Option.some_bind, expectChar_cons]
  rw [parseDigits_pad 2 mi _ (by omega)]
  simp only [Option.some_bind, expectChar_cons]
  rw [parseDigits_pad 2 s _ (by omega)]
  simp only [Option.some_bind]

theorem parseFrac_pad (us : Nat) (h : us < 1000000) (tail : List Char) :
    parseFrac ('.' :: (toPadList 6 us ++ tail)) = some (us, tail) := by
  have e6 : (10 : Nat) ^ 6 = 1000000 := by norm_num
  simp only [parseFrac, List.cons_append]
  rw [parseDigits_pad 6 us _ (by omega)]

theorem parseOffs_pos (hh mm : Nat) (hhh : hh < 100) (hmm : mm < 100) :
    parseOffs ('+' :: (toPadList 2 hh ++ ':' :: toPadList 2 mm)) =
      some (some ((hh * 60 + mm : Nat) : Int), []) := by
  have e2 : (10 : Nat) ^ 2 = 100 := by norm_num
  simp only [parseOffs]
  rw [parseDigits_pad 2 hh _ (by omega)]
  simp only [Option.bind_eq_bind, Option.some_bind, expectChar_cons]
  rw [parseDigits_pad_nil 2 mm (by omega)]
  simp only [Option.some_bind]

theorem parseOffs_neg (hh mm : Nat) (hhh : hh < 100) (hmm : mm < 100) :
    parseOffs ('-' :: (toPadList 2 hh ++ ':' :: toPadList 2 mm)) =
      some (some (-((hh * 60 + mm : Nat) : Int)), []) := by
  have e2 : (10 : Nat) ^ 2 = 100 := by norm_num
  simp only [parseOffs]
  rw [parseDigits_pad 2 hh _ (by omega)]
  simp only [Option.bind_eq_bind, Option.some_bind, expectChar_cons]
  rw [parseDigits_pad_nil 2 mm (by omega)]
  simp only [Option.some_bind]

theorem parseFrac_nil : parseFrac [] = some (0, []) := rfl

theorem parseFrac_plus (l : List Char) : parseFrac ('+' :: l) = some (0, '+' :: l) := rfl

theorem parseFrac_minus (l : List Char) : parseFrac ('-' :: l) = some (0, '-' :: l) := rfl

theorem parseOffs_nil : parseOffs [] = some (none, []) := rfl

theorem parseIsoList_isoformatList (d : Datetime) (hv : d.valid = true) :
    parseIsoList (isoformatList d) = some d := by
  obtain ⟨y, mo, dy, h, mi, s, us, off⟩ := d
  have hdm : daysInMonth y mo ≤ 31 := daysInMonth_le y mo
  have hvb := hv
  cases off with
  | none =>
    simp only [Datetime.valid, Bool.and_eq_true, decide_eq_true_eq, and_true] at hvb
    obtain ⟨⟨⟨⟨⟨⟨⟨⟨⟨hy1, hy2⟩, hmo1⟩, hmo2⟩, hdy1⟩, hdy2⟩, hhr⟩, hmn⟩, hsc⟩, hus⟩ := hvb
    by_cases h0 : us = 0
    · subst h0
      simp only [isoformatList, if_pos rfl, if_true, List.append_assoc, List.cons_append,
        List.nil_append]
      simp only [parseIsoList]
      rw [parseCore_pad y mo dy h mi s _ (by omega) (by omega) (by omega) (by omega)
        (by omega) (by omega)]
      simp only [Option.bind_eq_bind, Option.some_bind, parseFrac_nil, parseOffs_nil]
      simp [hv]
    · simp only [isoformatList, if_neg h0, List.append_assoc, List.cons_append,
        List.nil_append]
      simp only [parseIsoList]
      rw [parseCore_pad y mo dy h mi s _ (by omega) (by omega) (by omega) (by omega)
        (by omega) (by omega)]
      simp only [Option.bind_eq_bind, Option.some_bind]
      rw [parseFrac_pad us (by omega) _]
      simp only [Option.some_bind, parseOffs_nil]
      simp [hv]
  | some o =>
    simp only [Datetime.valid, Bool.and_eq_true, decide_eq_true_eq] at hvb
    obtain ⟨⟨⟨⟨⟨⟨⟨⟨⟨⟨hy1, hy2⟩, hmo1⟩, hmo2⟩, hdy1⟩, hdy2⟩, hhr⟩, hmn⟩, hsc⟩, hus⟩, ho1, ho2⟩ := hvb
    have hq : o.natAbs / 60 < 100 := by omega
    have hr : o.natAbs % 60 < 100 := by omega
    have hsum : ((o.natAbs / 60 * 60 + o.natAbs % 60 : Nat) : Int) = (o.natAbs : Int) := by
      omega
    by_cases hneg : o < 0
    · have hoeq : (-((o.natAbs / 60 * 60 + o.natAbs % 60 : Nat) : Int)) = o := by
        rw [hsum]; omega
      by_cases h0 : us = 0
      · subst h0
        simp only [isoformatList, if_pos rfl, if_true, if_pos hneg, List.append_assoc,
          List.cons_append, List.nil_append]
        simp only [parseIsoList]
        rw [parseCore_pad y mo dy h mi s _ (by omega) (by omega) (by omega) (by omega)
          (by omega) (by omega)]
        simp only [Option.bind_eq_bind, Option.some_bind, parseFrac_minus]
        rw [parseOffs_neg (o.natAbs / 60) (o.natAbs % 60) hq hr]
        simp only [Option.some_bind, hoeq]
        simp [hv]
      · simp only [isoformatList, if_neg h0, if_pos hneg, List.append_assoc,
          List.cons_append, List.nil_append]
        simp only [parseIsoList]
        rw [parseCore_pad y mo dy h mi s _ (by omega) (by omega) (by omega) (by omega)
          (by omega) (by omega)]
        simp only [Option.bind_eq_bind, Option.some_bind]
        rw [parseFrac_pad us (by omega) _]
        simp only [Option.some_bind]
        rw [parseOffs_neg (o.natAbs / 60) (o.natAbs % 60) hq hr]
        simp only [Option.some_bind, hoeq]
        simp [hv]
    · have hoeq : (((o.natAbs / 60 * 60 + o.natAbs % 60 : Nat) : Int)) = o := by
        rw [hsum]; omega
      by_cases h0 : us = 0
      · subst h0
        simp only [isoformatList, if_pos rfl, if_true, if_neg hneg, List.append_assoc,
          List.cons_append, List.nil_append]
        simp only [parseIsoList]
        rw [parseCore_pad y mo dy h mi s _ (by omega) (by omega) (by omega) (by omega)
          (by omega) (by omega)]
        simp only [Option.bind_eq_bind, Option.some_bind, parseFrac_plus]
        rw [parseOffs_pos (o.natAbs / 60) (o.natAbs % 60) hq hr]
        simp only [Option.some_bind, hoeq]
        simp [hv]
      · simp only [isoformatList, if_neg h0, if_neg hneg, List.append_assoc,
          List.cons_append, List.nil_append]
        simp only [parseIsoList]
        rw [parseCore_pad y mo dy h mi s _ (by omega) (by omega) (by omega) (by omega)
          (by omega) (by omega)]
        simp only [Option.bind_eq_bind, Option.some_bind]
        rw [parseFrac_pad us (by omega) _]
        simp only [Option.some_bind]
        rw [parseOffs_pos (o.natAbs / 60) (o.natAbs % 60) hq hr]
        simp only [Option.some_bind, hoeq]
        simp [hv]

theorem processBatch_ok_map (du : String → Except String Datetime)
    (pr : InsertRequest → Except String JVal) :
    ∀ (tcs : List ToolCall) (outs : List ToolOutput) (ins : List InsertRequest),
      processBatch du pr tcs = (.ok outs, ins) →
      outs = tcs.map (fun tc => { tool_call_id := tc.id, output := pfcOutput du pr tc }) := by
  intro tcs
  induction tcs with
  | nil =>
    intro outs ins h
    simp only [processBatch, Prod.mk.injEq] at h
    obtain ⟨h1, _⟩ := h
    cases h1
    simp
  | cons tc rest ih =>
    intro outs ins h
    simp only [processBatch] at h
    rcases hpc : process_function_call du pr tc with ⟨r1, ins1⟩
    rw [hpc] at h
    cases r1 with
    | error e => simp at h
    | ok out =>
      rcases hpb : processBatch du pr rest with ⟨r2, ins2⟩
      rw [hpb] at h
      cases r2 with
      | error e => simp at h
      | ok outs2 =>
        simp only [Prod.mk.injEq, Except.ok.injEq] at h
        obtain ⟨houts, _⟩ := h
        subst houts
        simp only [List.map_cons, List.cons.injEq]
        constructor
        · simp [pfcOutput, hpc]
        · exact ih outs2 ins2 hpb

theorem run_assistant_skip (du : String → Except String Datetime)
    (pr : InsertRequest → Except String JVal) (msgs : List Message) (p : Poll)
    (rest : List Poll) (h1 : p.status ≠ "completed") (h2 : p.status ≠ "requires_action")
    (h3 : ¬(p.status = "failed" ∨ p.status = "cancelled" ∨ p.status = "expired")) :
    run_assistant du pr msgs (p :: rest) = run_assistant du pr msgs rest := by
  simp only [run_assistant, if_neg h1, if_neg h2, if_neg h3]

/-- C5: every call to `create_event` maps each attendee email string into the
provider attendee-object shape; with attendees present the request carries
`sendUpdates = all`, with attendees absent it carries `sendUpdates = none`
and an empty attendee list. -/
theorem create_event_attendee_shape_and_notifications (summary desc : JVal)
    (st et : String) (emails : List String) :
    create_event summary st et (.arr (emails.map JVal.str)) desc =
      .ok { calendarId := "primary"
            body := { summary := summary, description := desc
                      start := { dateTime := st, timeZone := TIMEZONE }
                      end_ := { dateTime := et, timeZone := TIMEZONE }
                      attendees := emails.map (fun e => .dict [("email", .str e)]) }
            sendUpdates := if emails.isEmpty then "none" else "all" } ∧
    create_event summary st et .null desc =
      .ok { calendarId := "primary"
            body := { summary := summary, description := desc
                      start := { dateTime := st, timeZone := TIMEZONE }
                      end_ := { dateTime := et, timeZone := TIMEZONE }
                      attendees := [] }
            sendUpdates := "none" } := by
  constructor
  · cases emails with
    | nil => simp [create_event, jTruthy, jIterate]
    | cons e es => simp [create_event, jTruthy, jIterate, List.map_map, Function.comp]
  · simp [create_event, jTruthy]

/-- C9: a `requires_action` poll carrying an empty tool-call list performs no
work: no insert request is issued, and the submitted tool-output batch is
empty; polling resumes unchanged. -/
theorem requires_action_empty_batch_no_effects (du : String → Except String Datetime)
    (pr : InsertRequest → Except String JVal) (msgs : List Message) (p : Poll)
    (rest : List Poll) (hst : p.status = "requires_action") (hempty : p.tool_calls = []) :
    run_assistant du pr msgs (p :: rest) =
      { submissions := [] :: (run_assistant du pr msgs rest).submissions
        inserts := (run_assistant du pr msgs rest).inserts
        readMsgs := (run_assistant du pr msgs rest).readMsgs
        outcome := (run_assistant du pr msgs rest).outcome } := by
  simp [run_assistant, hst, hempty, processBatch]

/-- Witness for C9 at a concrete empty `requires_action` poll. -/
theorem requires_action_empty_batch_no_effects_witness :
    run_assistant duIso prOk msgsEx
        ({ status := "requires_action", tool_calls := [] } :: [{ status := "completed", tool_calls := [] }]) =
      { submissions := [] :: (run_assistant duIso prOk msgsEx [{ status := "completed", tool_calls := [] }]).submissions
        inserts := (run_assistant duIso prOk msgsEx [{ status := "completed", tool_calls := [] }]).inserts
        readMsgs := (run_assistant duIso prOk msgsEx [{ status := "completed", tool_calls := [] }]).readMsgs
        outcome := (run_assistant duIso prOk msgsEx [{ status := "completed", tool_calls := [] }]).outcome } :=
  requires_action_empty_batch_no_effects duIso prOk msgsEx
    { status := "requires_action", tool_calls := [] }
    [{ status := "completed", tool_calls := [] }] rfl rfl

/-- C2 (amended): on a `requires_action` poll whose tool calls all produce
outputs (their JSON argument payloads parse, so `process_function_call` does
not raise), the loop submits exactly one batch pairing each pending tool
call's id with the string `process_function_call` returned for it, in the
order of the pending tool calls, and then resumes polling.  (A raising tool
call instead aborts the run with no batch submitted, see the
counterexample.) -/
theorem requires_action_submits_batch_in_order (du : String → Except String Datetime)
    (pr : InsertRequest → Except String JVal) (msgs : List Message) (p : Poll)
    (rest : List Poll) (outs : List ToolOutput) (ins : List InsertRequest)
    (hst : p.status = "requires_action")
    (hb : processBatch du pr p.tool_calls = (.ok outs, ins)) :
    run_assistant du pr msgs (p :: rest) =
      { submissions := outs :: (run_assistant du pr msgs rest).submissions
        inserts := ins ++ (run_assistant du pr msgs rest).inserts
        readMsgs := (run_assistant du pr msgs rest).readMsgs
        outcome := (run_assistant du pr msgs rest).outcome } ∧
    outs = p.tool_calls.map (fun tc => { tool_call_id := tc.id, output := pfcOutput du pr tc }) := by
  constructor
  · simp [run_assistant, hst, hb]
  · exact processBatch_ok_map du pr p.tool_calls outs ins hb

/-- Witness for C2 at a concrete `requires_action` poll with two tool calls. -/
theorem requires_action_submits_batch_in_order_witness :
    run_assistant duIso prOk msgsEx
        ({ status := "requires_action", tool_calls := [tcGood, tcUnknown] } :: [{ status := "completed", tool_calls := [] }]) =
      { submissions :=
          [{ tool_call_id := "call_1", output := "Event created: https://calendar.google.com/event?eid=abc123" },
           { tool_call_id := "call_u2", output := "Unknown function called" }] ::
            (run_assistant duIso prOk msgsEx [{ status := "completed", tool_calls := [] }]).submissions
        inserts := [reqGood] ++ (run_assistant duIso prOk msgsEx [{ status := "completed", tool_calls := [] }]).inserts
        readMsgs := (run_assistant duIso prOk msgsEx [{ status := "completed", tool_calls := [] }]).readMsgs
        outcome := (run_assistant duIso prOk msgsEx [{ status := "completed", tool_calls := [] }]).outcome } ∧
    [({ tool_call_id := "call_1", output := "Event created: https://calendar.google.com/event?eid=abc123" } : ToolOutput),
     { tool_call_id := "call_u2", output := "Unknown function called" }] =
      [tcGood, tcUnknown].map (fun tc => { tool_call_id := tc.id, output := pfcOutput duIso prOk tc }) :=
  requires_action_submits_batch_in_order duIso prOk msgsEx
    { status := "requires_action", tool_calls := [tcGood, tcUnknown] }
    [{ status := "completed", tool_calls := [] }]
    [{ tool_call_id := "call_1", output := "Event created: https://calendar.google.com/event?eid=abc123" },
     { tool_call_id := "call_u2", output := "Unknown function called" }]
    [reqGood] rfl rfl

/-- Counterexample for C2 as stated: a `requires_action` poll whose pending
tool call carries malformed JSON arguments makes `process_function_call`
raise, so the loop aborts with the propagated exception — no tool-output
batch is submitted (not even a partial one) and polling does not resume,
although a `completed` poll follows in the trace. -/
theorem requires_action_raising_tool_call_submits_nothing :
    run_assistant duIso prOk msgsEx
        [{ status := "requires_action", tool_calls := [tcMalformed] },
         { status := "completed", tool_calls := [] }] =
      { submissions := [], inserts := [], readMsgs := false
        outcome := .raised "Expecting value" } :=
  rfl

/-- C3: when the polled status reaches `failed`, `cancelled` or `expired`
after only non-actionable statuses, the loop returns the fixed failure string
immediately, submitting no tool outputs and never reading the thread's
message list. -/
theorem run_failure_returns_fixed_string (du : String → Except String Datetime)
    (pr : InsertRequest → Except String JVal) (msgs : List Message) (pre : List Poll)
    (p : Poll) (rest : List Poll)
    (hpre : ∀ q ∈ pre, q.status ≠ "completed" ∧ q.status ≠ "requires_action" ∧
      ¬(q.status = "failed" ∨ q.status = "cancelled" ∨ q.status = "expired"))
    (hp : p.status = "failed" ∨ p.status = "cancelled" ∨ p.status = "expired") :
    run_assistant du pr msgs (pre ++ p :: rest) =
      { submissions := [], inserts := [], readMsgs := false
        outcome := .returned "Run failed" } := by
  revert hpre
  induction pre with
  | nil =>
    intro _
    have h1 : p.status ≠ "completed" := by rcases hp with h | h | h <;> simp [h]
    have h2 : p.status ≠ "requires_action" := by rcases hp with h | h | h <;> simp [h]
    simp only [List.nil_append, run_assistant, if_neg h1, if_neg h2, if_pos hp]
  | cons q pre ih =>
    intro hpre
    obtain ⟨h1, h2, h3⟩ := hpre q (by simp)
    rw [List.cons_append, run_assistant_skip du pr msgs q _ h1 h2 h3]
    exact ih (fun r hr => hpre r (by simp [hr]))

/-- Witness for C3: two non-actionable polls followed by a `failed` poll. -/
theorem run_failure_returns_fixed_string_witness :
    run_assistant duIso prOk msgsEx
        ([{ status := "queued", tool_calls := [] }, { status := "in_progress", tool_calls := [] }] ++
          { status := "failed", tool_calls := [] } :: []) =
      { submissions := [], inserts := [], readMsgs := false
        outcome := .returned "Run failed" } :=
  run_failure_returns_fixed_string duIso prOk msgsEx
    [{ status := "queued", tool_calls := [] }, { status := "in_progress", tool_calls := [] }]
    { status := "failed", tool_calls := [] } []
    (by
      intro q hq
      simp only [List.mem_cons, List.not_mem_nil, or_false] at hq
      rcases hq with rfl | rfl <;> exact ⟨by decide, by decide, by decide⟩)
    (Or.inl rfl)

/-- C4: when the polled status reaches `completed`, the loop exits, reads the
thread's message list and returns the content of the most recent message. -/
theorem completed_reads_latest_message (du : String → Except String Datetime)
    (pr : InsertRequest → Except String JVal) (msgs : List Message) (pre : List Poll)
    (p : Poll) (rest : List Poll) (c : String)
    (hpre : ∀ q ∈ pre, q.status ≠ "completed" ∧
      ¬(q.status = "failed" ∨ q.status = "cancelled" ∨ q.status = "expired") ∧
      (q.status = "requires_action" → ∃ outs ins, processBatch du pr q.tool_calls = (.ok outs, ins)))
    (hp : p.status = "completed") (hread : readLatest msgs = .ok c) :
    (run_assistant du pr msgs (pre ++ p :: rest)).readMsgs = true ∧
    (run_assistant du pr msgs (pre ++ p :: rest)).outcome = .returned c := by
  revert hpre
  induction pre with
  | nil =>
    intro _
    simp only [List.nil_append, run_assistant, if_pos hp, hread]
    exact ⟨by trivial, by trivial⟩
  | cons q pre ih =>
    intro hpre
    obtain ⟨h1, h3, h2⟩ := hpre q (by simp)
    by_cases hqa : q.status = "requires_action"
    · obtain ⟨outs, ins, hb⟩ := h2 hqa
      rw [List.cons_append]
      simp only [run_assistant, if_neg h1, if_pos hqa, hb]
      exact ih (fun r hr => hpre r (by simp [hr]))
    · rw [List.cons_append, run_assistant_skip du pr msgs q _ h1 hqa h3]
      exact ih (fun r hr => hpre r (by simp [hr]))

/-- Witness for C4: a queued poll and a tool-call round before completion. -/
theorem completed_reads_latest_message_witness :
    (run_assistant duIso prOk msgsEx
        ([{ status := "queued", tool_calls := [] }, { status := "requires_action", tool_calls := [tcUnknown] }] ++
          { status := "completed", tool_calls := [] } :: [])).readMsgs = true ∧
    (run_assistant duIso prOk msgsEx
        ([{ status := "queued", tool_calls := [] }, { status := "requires_action", tool_calls := [tcUnknown] }] ++
          { status := "completed", tool_calls := [] } :: [])).outcome =
      .returned "Your meeting is booked: https://calendar.google.com/event?eid=abc123" :=
  completed_reads_latest_message duIso prOk msgsEx
    [{ status := "queued", tool_calls := [] }, { status := "requires_action", tool_calls := [tcUnknown] }]
    { status := "completed", tool_calls := [] } []
    "Your meeting is booked: https://calendar.google.com/event?eid=abc123"
    (by
      intro q hq
      simp only [List.mem_cons, List.not_mem_nil, or_false] at hq
      rcases hq with rfl | rfl
      · exact ⟨by decide, by decide, by intro h; exact absurd h (by decide)⟩
      · exact ⟨by decide, by decide,
          fun _ => ⟨[{ tool_call_id := "call_u2", output := "Unknown function called" }], [], rfl⟩⟩)
    rfl rfl

/-- C1 (amended): for a tool call naming `create_google_calendar_event` whose
JSON argument payload parses, `process_function_call` always returns a string:
missing keys, unparseable timestamps and creation failures are all converted
into error strings.  (A payload that fails `json.loads` instead propagates the
exception, see the counterexample.) -/
theorem process_function_call_total_when_arguments_parse
    (du : String → Except String Datetime) (pr : InsertRequest → Except String JVal)
    (tc : ToolCall) (args : JVal)
    (hname : tc.function.name = "create_google_calendar_event")
    (hjson : json_loads tc.function.arguments = .ok args) :
    ∃ s, (process_function_call du pr tc).1 = .ok s := by
  rcases h : tryCreate du pr args with ⟨r, ins⟩
  cases r with
  | ok s => exact ⟨s, by simp [process_function_call, hjson, hname, h]⟩
  | error e =>
    exact ⟨"Error creating event: " ++ e, by simp [process_function_call, hjson, hname, h]⟩

/-- Witness for the amended C1 at a well-formed tool call. -/
theorem process_function_call_total_when_arguments_parse_witness :
    ∃ s, (process_function_call duIso prOk tcGood).1 = .ok s :=
  process_function_call_total_when_arguments_parse duIso prOk tcGood argsGood rfl rfl

/-- Counterexample for C1 as stated: a tool call naming
`create_google_calendar_event` with malformed JSON arguments makes
`process_function_call` propagate the `json.loads` exception instead of
returning a string. -/
theorem process_function_call_raises_on_malformed_json :
    tcMalformed.function.name = "create_google_calendar_event" ∧
    process_function_call duIso prOk tcMalformed = (.error "Expecting value", []) :=
  ⟨rfl, rfl⟩

/-- C7 (amended): for a tool call whose arguments parse as JSON and whose
function name is not `create_google_calendar_event`, `process_function_call`
returns exactly the fixed unknown-function string and issues no calendar
call. -/
theorem unknown_function_fixed_string (du : String → Except String Datetime)
    (pr : InsertRequest → Except String JVal) (tc : ToolCall) (args : JVal)
    (hjson : json_loads tc.function.arguments = .ok args)
    (hname : tc.function.name ≠ "create_google_calendar_event") :
    process_function_call du pr tc = (.ok "Unknown function called", []) := by
  simp [process_function_call, hjson, hname]

/-- Witness for the amended C7 at a concrete unknown-function tool call. -/
theorem unknown_function_fixed_string_witness :
    process_function_call duIso prOk tcUnknown = (.ok "Unknown function called", []) :=
  unknown_function_fixed_string duIso prOk tcUnknown (.dict []) rfl (by decide)

/-- Counterexample for C7 as stated: an unknown function name with malformed
JSON arguments propagates the `json.loads` exception instead of returning the
fixed unknown-function string. -/
theorem unknown_function_raises_on_malformed_json :
    tcuBad.function.name ≠ "create_google_calendar_event" ∧
    process_function_call duIso prOk tcuBad = (.error "Expecting value", []) :=
  ⟨by decide, rfl⟩

/-- C6: for a tool call naming `create_google_calendar_event` whose arguments
parse, whose timestamps the permissive parser accepts, and whose creation
succeeds with a link, `process_function_call` normalizes both timestamps via
parse-then-isoformat, issues exactly the insert request built from them, and
returns the success string carrying the created event's link. -/
theorem known_function_success_returns_event_link
    (du : String → Except String Datetime) (pr : InsertRequest → Except String JVal)
    (tc : ToolCall) (args : JVal) (stS etS : String) (d1 d2 : Datetime)
    (sumV attV descV : JVal) (req : InsertRequest) (ev : JVal) (link : String)
    (hname : tc.function.name = "create_google_calendar_event")
    (hjson : json_loads tc.function.arguments = .ok args)
    (hst : pySubscript args "start_time" = .ok (.str stS))
    (hd1 : du stS = .ok d1)
    (het : pySubscript args "end_time" = .ok (.str etS))
    (hd2 : du etS = .ok d2)
    (hsm : pySubscript args "summary" = .ok sumV)
    (hat : pyDictGet args "attendees" = .ok attV)
    (hde : pyDictGet args "description" = .ok descV)
    (hreq : create_event sumV d1.isoformat d2.isoformat attV descV = .ok req)
    (hpr : pr req = .ok ev)
    (hlink : pyDictGet ev "htmlLink" = .ok (.str link)) :
    process_function_call du pr tc = (.ok ("Event created: " ++ link), [req]) := by
  simp [process_function_call, hjson, hname, tryCreate, hst, pyParse, hd1, het, hd2,
    hsm, hat, hde, hreq, hpr, hlink, pyStr]

/-- Witness for C6 at a fully concrete successful tool call. -/
theorem known_function_success_returns_event_link_witness :
    process_function_call duIso prOk tcGood =
      (.ok ("Event created: " ++ "https://calendar.google.com/event?eid=abc123"), [reqGood]) :=
  known_function_success_returns_event_link duIso prOk tcGood argsGood
    "2024-06-03T14:00:00" "2024-06-03T15:00:00"
    ⟨2024, 6, 3, 14, 0, 0, 0, none⟩ ⟨2024, 6, 3, 15, 0, 0, 0, none⟩
    (.str "Team meeting")
    (.arr [.str "alice@example.com", .str "bob@example.com"]) .null
    reqGood evGood "https://calendar.google.com/event?eid=abc123"
    rfl rfl rfl rfl rfl rfl rfl rfl rfl rfl rfl rfl

/-- C8: normalization (permissive parse followed by `isoformat`) is
round-trip stable: re-parsing the ISO-8601 string produced from any valid
parsed datetime yields that same datetime, so normalization is idempotent. -/
theorem normalization_roundtrip (d : Datetime) (hv : d.valid = true) :
    parseIso d.isoformat = some d ∧
    (parseIso d.isoformat).map Datetime.isoformat = some d.isoformat := by
  have h : parseIso d.isoformat = some d := parseIsoList_isoformatList d hv
  exact ⟨h, by rw [h]; rfl⟩

/-- Witness for C8 at a concrete aware datetime with microseconds. -/
theorem normalization_roundtrip_witness :
    parseIso (Datetime.isoformat ⟨2024, 6, 3, 14, 30, 5, 250000, some (-330)⟩) =
      some ⟨2024, 6, 3, 14, 30, 5, 250000, some (-330)⟩ ∧
    (parseIso (Datetime.isoformat ⟨2024, 6, 3, 14, 30, 5, 250000, some (-330)⟩)).map
        Datetime.isoformat =
      some (Datetime.isoformat ⟨2024, 6, 3, 14, 30, 5, 250000, some (-330)⟩) :=
  normalization_roundtrip ⟨2024, 6, 3, 14, 30, 5, 250000, some (-330)⟩ (by decide)

/-- C10 (amended): every status other than the five handled ones is
non-terminal (the loop just polls again), and — provided no `requires_action`
batch raises, i.e. every pending tool call's JSON payload parses — the loop
terminates exactly when the poll trace contains `completed`, `failed`,
`cancelled` or `expired`.  (A raising tool call also ends the run, by
propagating the exception with no terminal status polled, see the
counterexample.) -/
theorem run_assistant_nonterminal_and_termination (du : String → Except String Datetime)
    (pr : InsertRequest → Except String JVal) (msgs : List Message) :
    (∀ (p : Poll) (rest : List Poll),
        p.status ∉ (["completed", "requires_action", "failed", "cancelled", "expired"] : List String) →
        run_assistant du pr msgs (p :: rest) = run_assistant du pr msgs rest) ∧
    (∀ polls : List Poll,
        (∀ p ∈ polls, p.status = "requires_action" →
          ∃ outs ins, processBatch du pr p.tool_calls = (.ok outs, ins)) →
        ((run_assistant du pr msgs polls).outcome ≠ .pending ↔
          ∃ p ∈ polls, p.status ∈ (["completed", "failed", "cancelled", "expired"] : List String))) := by
  constructor
  · intro p rest hmem
    simp only [List.mem_cons, List.not_mem_nil, or_false, not_or] at hmem
    obtain ⟨h1, h2, h3, h4, h5⟩ := hmem
    exact run_assistant_skip du pr msgs p rest h1 h2 (by tauto)
  · intro polls
    induction polls with
    | nil =>
      intro _
      simp [run_assistant]
    | cons p rest ih =>
      intro hsafe
      by_cases hc : p.status = "completed"
      · have hL : (run_assistant du pr msgs (p :: rest)).outcome ≠ .pending := by
          rcases hre : readLatest msgs with e | c <;> simp [run_assistant, hc, hre]
        exact iff_of_true hL ⟨p, by simp, by simp [hc]⟩
      · by_cases hra : p.status = "requires_action"
        · obtain ⟨outs, ins, hb⟩ := hsafe p (by simp) hra
          have hrw : (run_assistant du pr msgs (p :: rest)).outcome =
              (run_assistant du pr msgs rest).outcome := by
            simp [run_assistant, hc, hra, hb]
          rw [hrw, ih (fun q hq => hsafe q (by simp [hq]))]
          constructor
          · rintro ⟨q, hq, hqs⟩
            exact ⟨q, by simp [hq], hqs⟩
          · rintro ⟨q, hq, hqs⟩
            rcases List.mem_cons.mp hq with rfl | hq2
            · rw [hra] at hqs
              simp at hqs
            · exact ⟨q, hq2, hqs⟩
        · by_cases hf : p.status = "failed" ∨ p.status = "cancelled" ∨ p.status = "expired"
          · have hL : (run_assistant du pr msgs (p :: rest)).outcome ≠ .pending := by
              simp only [run_assistant, if_neg hc, if_neg hra, if_pos hf]
              simp
            refine iff_of_true hL ⟨p, by simp, ?_⟩
            rcases hf with h | h | h <;> simp [h]
          · rw [run_assistant_skip du pr msgs p rest hc hra hf,
              ih (fun q hq => hsafe q (by simp [hq]))]
            constructor
            · rintro ⟨q, hq, hqs⟩
              exact ⟨q, by simp [hq], hqs⟩
            · rintro ⟨q, hq, hqs⟩
              rcases List.mem_cons.mp hq with rfl | hq2
              · exfalso
                simp only [List.mem_cons, List.not_mem_nil, or_false] at hqs
                rcases hqs with h | h | h | h
                · exact hc h
                · exact hf (Or.inl h)
                · exact hf (Or.inr (Or.inl h))
                · exact hf (Or.inr (Or.inr h))
              · exact ⟨q, hq2, hqs⟩

/-- Witness for C10: the skip step at a `queued` poll, and the termination
characterization for a concrete queued-then-completed trace. -/
theorem run_assistant_nonterminal_and_termination_witness :
    run_assistant duIso prOk msgsEx
        ({ status := "queued", tool_calls := [] } :: [{ status := "completed", tool_calls := [] }]) =
      run_assistant duIso prOk msgsEx [{ status := "completed", tool_calls := [] }] ∧
    ((run_assistant duIso prOk msgsEx
        [{ status := "queued", tool_calls := [] }, { status := "completed", tool_calls := [] }]).outcome ≠ .pending ↔
      ∃ p ∈ [({ status := "queued", tool_calls := [] } : Poll), { status := "completed", tool_calls := [] }],
        p.status ∈ (["completed", "failed", "cancelled", "expired"] : List String)) :=
  ⟨(run_assistant_nonterminal_and_termination duIso prOk msgsEx).1
      { status := "queued", tool_calls := [] } [{ status := "completed", tool_calls := [] }]
      (by decide),
   (run_assistant_nonterminal_and_termination duIso prOk msgsEx).2
      [{ status := "queued", tool_calls := [] }, { status := "completed", tool_calls := [] }]
      (by
        intro p hp hreq
        exfalso
        simp only [List.mem_cons, List.not_mem_nil, or_false] at hp
        rcases hp with rfl | rfl <;> exact absurd hreq (by decide))⟩

/-- Counterexample for C10 as stated: on a trace holding a single
`requires_action` poll whose tool call carries malformed JSON arguments, the
loop terminates (outcome is the propagated exception, not still-polling)
although no poll ever yields `completed`, `failed`, `cancelled` or
`expired` — refuting the unqualified only-if direction. -/
theorem run_assistant_terminates_by_raise_without_terminal_status :
    (run_assistant duIso prOk msgsEx
        [{ status := "requires_action", tool_calls := [tcMalformed] }]).outcome ≠ .pending ∧
    ¬ ∃ p ∈ [({ status := "requires_action", tool_calls := [tcMalformed] } : Poll)],
        p.status ∈ (["completed", "failed", "cancelled", "expired"] : List String) := by
  constructor
  · rw [show (run_assistant duIso prOk msgsEx
        [{ status := "requires_action", tool_calls := [tcMalformed] }]).outcome =
        .raised "Expecting value" from rfl]
    simp
  · simp
